import Mathlib

/-!
Shallow embedding of the `my-todos` repository for specification checking.

The repository ships two generations of the application:
* `src/main.rs` — a self-contained prototype (`TaskList`, `TaskStatus`,
  `DbRequest`/`DbMessage`, a worker loop);
* `src/core.rs`, `src/database.rs`, `src/ui/task_list.rs`, `src/ui/pending.rs`
  — the newer generic engine (`Task` with status/priority, `TaskSorter`,
  `TaskStorage`, `Pending<T>`).

Each Rust item is translated into a Lean definition under a namespace naming
its source file.  Asynchronous database calls are modelled by passing the
query outcome (`Except` of the error type) as an explicit argument.
-/

namespace Main

/-- `struct Task` from `src/main.rs` (`id: i64, description: String, done: bool`). -/
structure Task where
  id : Int
  description : String
  done : Bool
deriving DecidableEq, Repr

/-- `enum Filter` from `src/main.rs`; `All` carries `#[default]`. -/
inductive Filter
  | All
  | Active
  | Completed
deriving DecidableEq, Repr

/-- `enum TaskStatus` from `src/main.rs`: a task is either a pending fetch
(known id only) or an available record. -/
inductive TaskStatus
  | Pending (id : Int)
  | Available (task : Task)
deriving DecidableEq, Repr

/-- `struct TaskList` from `src/main.rs`.  `#[derive(Default)]` gives
`next_task = ""`, `filter = Filter::All`, `tasks = vec![]`. -/
structure TaskList where
  next_task : String
  filter : Filter
  tasks : List TaskStatus
deriving DecidableEq, Repr

/-- `TaskList::default()`. -/
def TaskList.default : TaskList :=
  { next_task := "", filter := Filter.All, tasks := [] }

/-- `TaskList::new(tasks)`: wrap every fetched task in `Available`, all other
fields from `Default::default()`. -/
def TaskList.new (tasks : List Task) : TaskList :=
  { TaskList.default with tasks := tasks.map TaskStatus.Available }

/-- The predicate used by the `find` in `TaskList::update_pending`: the entry
is `Pending(pending_id)` with `id == pending_id`. -/
def isPendingWithId (id : Int) : TaskStatus → Bool
  | TaskStatus.Pending pending_id => id == pending_id
  | TaskStatus.Available _ => false

/-- `iter_mut().find(p)` followed by `*task = new`: replace the first entry
satisfying `p` and leave the list unchanged when none matches. -/
def replaceFirst (p : α → Bool) (new : α) : List α → List α
  | [] => []
  | x :: xs => if p x then new :: xs else x :: replaceFirst p new xs

/-- `TaskList::update_pending(id, new_task)`: the first `Pending(id)` entry
becomes `Available(new_task)`; a list with no such entry is untouched. -/
def TaskList.update_pending (l : TaskList) (id : Int) (new_task : Task) : TaskList :=
  { l with tasks := replaceFirst (isPendingWithId id) (TaskStatus.Available new_task) l.tasks }

/-- The state change of `TaskList::add_pending(id, sender)`: push
`Pending(id)` onto the task vector (the `FetchTodo(id)` send is modelled by
`add_pending_request`). -/
def TaskList.add_pending (l : TaskList) (id : Int) : TaskList :=
  { l with tasks := l.tasks ++ [TaskStatus.Pending id] }

/-- `enum DbRequest` from `src/main.rs`. -/
inductive DbRequest
  | FetchAllTodos
  | FetchTodo (id : Int)
  | AddTodo (description : String) (done : Bool)
deriving DecidableEq, Repr

/-- `enum DbMessage` from `src/main.rs`. -/
inductive DbMessage
  | AllTodosFetched (tasks : List Task)
  | TodoFetched (task : Task)
  | TodoAdded (id : Int)
deriving DecidableEq, Repr

/-- The request emitted by `TaskList::add_pending` when a sender is present. -/
def add_pending_request (id : Int) : DbRequest :=
  DbRequest.FetchTodo id

/-- The message-consumption callback of the `worker` in `app_logic`
(`src/main.rs` lines 229–239): `AllTodosFetched` rebuilds the whole list,
`TodoFetched` resolves a pending entry, `TodoAdded` appends one. -/
def handleDb (msg : DbMessage) (l : TaskList) : TaskList :=
  match msg with
  | DbMessage.AllTodosFetched tasks => TaskList.new tasks
  | DbMessage.TodoFetched task => l.update_pending task.id task
  | DbMessage.TodoAdded id => l.add_pending id

/-- The error type of the worker's storage calls (`anyhow::Error`), modelled
as an opaque message. -/
structure DbError where
  msg : String
deriving DecidableEq, Repr

/-- The `DbRequest::FetchAllTodos` arm of the worker loop (`src/main.rs`
lines 190–200): a success is forwarded as `AllTodosFetched`; an error is
printed to stdout and no message is sent. -/
def handleFetchAllResult (result : Except DbError (List Task)) : Option DbMessage :=
  match result with
  | Except.ok tasks => some (DbMessage.AllTodosFetched tasks)
  | Except.error _ => none

/-- The `DbRequest::FetchTodo` arm of the worker loop (`src/main.rs` lines
201–209): success forwarded as `TodoFetched`, error printed and dropped. -/
def handleFetchTodoResult (result : Except DbError Task) : Option DbMessage :=
  match result with
  | Except.ok task => some (DbMessage.TodoFetched task)
  | Except.error _ => none

/-- The `DbRequest::AddTodo` arm of the worker loop (`src/main.rs` lines
210–218): success forwarded as `TodoAdded`, error printed and dropped. -/
def handleAddTodoResult (result : Except DbError Int) : Option DbMessage :=
  match result with
  | Except.ok id => some (DbMessage.TodoAdded id)
  | Except.error _ => none

/-- Fold a batch of `TodoFetched`-style completions (id together with the
fetched task) into the list, in arrival order. -/
def applyCompletions (l : TaskList) (cs : List (Int × Task)) : TaskList :=
  cs.foldl (fun s c => s.update_pending c.1 c.2) l

/-- The id an entry refers to: the pending id, or the available task's id. -/
def entryId : TaskStatus → Int
  | TaskStatus.Pending id => id
  | TaskStatus.Available task => task.id

end Main

namespace Main

theorem replaceFirst_no_match {p : α → Bool} {new : α} :
    ∀ {xs : List α}, (∀ x ∈ xs, p x = false) → replaceFirst p new xs = xs := by
  intro xs
  induction xs with
  | nil => intro _; rfl
  | cons x xs ih =>
    intro h
    simp only [replaceFirst, h x (List.mem_cons_self x xs), Bool.false_eq_true, if_false]
    rw [ih fun y hy => h y (List.mem_cons_of_mem x hy)]

theorem replaceFirst_append_last {p : α → Bool} {new x : α} {xs : List α}
    (hxs : ∀ y ∈ xs, p y = false) (hx : p x = true) :
    replaceFirst p new (xs ++ [x]) = xs ++ [new] := by
  induction xs with
  | nil => simp [replaceFirst, hx]
  | cons y ys ih =>
    have hy : p y = false := hxs y (List.mem_cons_self y ys)
    simp only [List.cons_append, replaceFirst, hy, Bool.false_eq_true, if_false,
      List.cons.injEq, true_and]
    exact ih fun z hz => hxs z (List.mem_cons_of_mem y hz)

theorem isPendingWithId_ne {id : Int} {e : TaskStatus} (h : entryId e ≠ id) :
    isPendingWithId id e = false := by
  cases e with
  | Pending i =>
    simp only [entryId] at h
    simp only [isPendingWithId, beq_eq_false_iff_ne, ne_eq]
    exact fun hc => h hc.symm
  | Available t => rfl

/-- Replacing the first `Pending i` entry and the first `Pending j` entry
commutes when `i ≠ j`. -/
theorem replaceFirst_pending_comm {i j : Int} (hij : i ≠ j) (t₁ t₂ : Task) :
    ∀ xs : List TaskStatus,
      replaceFirst (isPendingWithId j) (TaskStatus.Available t₂)
          (replaceFirst (isPendingWithId i) (TaskStatus.Available t₁) xs) =
        replaceFirst (isPendingWithId i) (TaskStatus.Available t₁)
          (replaceFirst (isPendingWithId j) (TaskStatus.Available t₂) xs) := by
  intro xs
  induction xs with
  | nil => rfl
  | cons x xs ih =>
    cases x with
    | Available t => simp [replaceFirst, isPendingWithId, ih]
    | Pending k =>
      by_cases hik : i = k
      · have hjk : ¬j = k := fun h => hij (hik.trans h.symm)
        simp [replaceFirst, isPendingWithId, hik, hjk]
      · by_cases hjk : j = k
        · simp [replaceFirst, isPendingWithId, hik, hjk]
        · simp [replaceFirst, isPendingWithId, hik, hjk, ih]

theorem update_pending_comm {i j : Int} (hij : i ≠ j) (t₁ t₂ : Task) (l : TaskList) :
    (l.update_pending i t₁).update_pending j t₂ =
      (l.update_pending j t₂).update_pending i t₁ := by
  simp only [TaskList.update_pending]
  exact congrArg _ (replaceFirst_pending_comm hij t₁ t₂ l.tasks)

/-- C1: consuming a batch of completion responses on pairwise-disjoint ids
yields the same final collection whatever the arrival order: folding
`update_pending` over any permutation of the completions gives the same
`TaskList` (the two-response swap is the special case of a transposition). -/
theorem C1_completion_order_invariance (l : TaskList) (cs₁ cs₂ : List (Int × Task))
    (hperm : cs₁.Perm cs₂)
    (hdisj : cs₁.Pairwise fun a b => a.1 ≠ b.1) :
    applyCompletions l cs₁ = applyCompletions l cs₂ := by
  unfold applyCompletions
  refine hperm.foldl_eq' ?_ l
  intro x hx y hy z
  by_cases hxy : x = y
  · rw [hxy]
  · have hids : x.1 ≠ y.1 :=
      hdisj.forall (fun a b h => h.symm) hx hy hxy
    exact update_pending_comm hids x.2 y.2 z

/-- Witness for C1: two completions for ids 1 and 2, consumed in either
order, produce the same list. -/
theorem C1_completion_order_invariance_witness :
    applyCompletions ⟨"", Filter.All, [TaskStatus.Pending 1, TaskStatus.Pending 2]⟩
        [((1 : Int), ⟨1, "a", false⟩), ((2 : Int), ⟨2, "b", true⟩)] =
      applyCompletions ⟨"", Filter.All, [TaskStatus.Pending 1, TaskStatus.Pending 2]⟩
        [((2 : Int), ⟨2, "b", true⟩), ((1 : Int), ⟨1, "a", false⟩)] :=
  C1_completion_order_invariance _ _ _ (by decide) (by decide)

/-- C2: a response whose id matches no pending entry is a no-op —
`update_pending` returns the state exactly unchanged (the prototype's
`TaskList` carries no error field, so in particular no error state can be
set). -/
theorem C2_unmatched_response_noop (l : TaskList) (id : Int) (t : Task)
    (h : ∀ e ∈ l.tasks, isPendingWithId id e = false) :
    l.update_pending id t = l := by
  unfold TaskList.update_pending
  rw [replaceFirst_no_match h]

/-- Witness for C2: a response for id 3 hits a list whose only entries are
`Pending 5` and `Available` id 3 — no pending entry matches, nothing changes. -/
theorem C2_unmatched_response_noop_witness :
    TaskList.update_pending ⟨"x", Filter.Active,
        [TaskStatus.Pending 5, TaskStatus.Available ⟨3, "a", false⟩]⟩ 3 ⟨3, "zzz", true⟩ =
      ⟨"x", Filter.Active, [TaskStatus.Pending 5, TaskStatus.Available ⟨3, "a", false⟩]⟩ :=
  C2_unmatched_response_noop _ 3 _ (by decide)

/-- C3: a successful fetch-all replaces the whole list wholesale — the result
is exactly the fetched items, each wrapped `Available`, with no trace of the
prior collection (pending entries included). -/
theorem C3_fetch_all_replaces_wholesale (tasks : List Task) (l : TaskList) :
    handleDb (DbMessage.AllTodosFetched tasks) l =
      { next_task := "", filter := Filter.All, tasks := tasks.map TaskStatus.Available } :=
  rfl

/-- C5: dispatching a create (the `TodoAdded id` completion pushes
`Pending id`) and then consuming its `TodoFetched` success response for the
same server-assigned id leaves exactly one entry for that id — `Available t`
with the created description — and no pending placeholder remains. -/
theorem C5_create_round_trip (l : TaskList) (id : Int) (t : Task) (d : String)
    (hid : t.id = id) (_hdesc : t.description = d)
    (hfresh : ∀ e ∈ l.tasks, entryId e ≠ id) :
    ((l.add_pending id).update_pending id t).tasks.filter (fun e => entryId e == id) =
        [TaskStatus.Available t] ∧
      TaskStatus.Pending id ∉ ((l.add_pending id).update_pending id t).tasks := by
  have hstep : ((l.add_pending id).update_pending id t).tasks =
      l.tasks ++ [TaskStatus.Available t] := by
    show replaceFirst (isPendingWithId id) (TaskStatus.Available t)
        (l.tasks ++ [TaskStatus.Pending id]) = _
    exact replaceFirst_append_last
      (fun y hy => isPendingWithId_ne (hfresh y hy)) (by simp [isPendingWithId])
  rw [hstep]
  constructor
  · rw [List.filter_append]
    have h₁ : l.tasks.filter (fun e => entryId e == id) = [] := by
      rw [List.filter_eq_nil_iff]
      intro e he
      simp [hfresh e he]
    rw [h₁]
    simp [entryId, hid]
  · intro hmem
    rcases List.mem_append.mp hmem with hmem | hmem
    · exact hfresh _ hmem rfl
    · simp at hmem

/-- Witness for C5: creating "buy milk", assigned server id 42, against a
list holding an unrelated available task. -/
theorem C5_create_round_trip_witness :
    ((TaskList.add_pending ⟨"", Filter.All, [TaskStatus.Available ⟨7, "x", false⟩]⟩
            42).update_pending 42 ⟨42, "buy milk", false⟩).tasks.filter
        (fun e => entryId e == 42) = [TaskStatus.Available ⟨42, "buy milk", false⟩] ∧
      TaskStatus.Pending 42 ∉
        ((TaskList.add_pending ⟨"", Filter.All, [TaskStatus.Available ⟨7, "x", false⟩]⟩
            42).update_pending 42 ⟨42, "buy milk", false⟩).tasks :=
  C5_create_round_trip _ 42 _ "buy milk" rfl rfl (by decide)

/-- C10: consuming a successful fetch-all replaces the whole list state, not
only the collection — the filter selection is reset to its default
(`Filter::All`) and the in-progress input text is cleared, whatever their
prior values. -/
theorem C10_fetch_all_resets_filter_and_input (tasks : List Task) (l : TaskList) :
    (handleDb (DbMessage.AllTodosFetched tasks) l).next_task = "" ∧
      (handleDb (DbMessage.AllTodosFetched tasks) l).filter = Filter.All :=
  ⟨rfl, rfl⟩

end Main

namespace Core

/-- `enum Status` from `src/core.rs` (`repr(i32)`, default discriminants
0, 1, 2; `ToDo` carries `#[default]`). -/
inductive Status
  | ToDo
  | InProgress
  | Done
deriving DecidableEq, Repr

/-- `Status::next` from `src/core.rs`. -/
def Status.next : Status → Status
  | Status.ToDo => Status.InProgress
  | Status.InProgress => Status.Done
  | Status.Done => Status.ToDo

/-- `enum Priority` from `src/core.rs` (`repr(i32)`, discriminants 0, 1, 2). -/
inductive Priority
  | Low
  | Medium
  | High
deriving DecidableEq, Repr

/-- `Priority::next` from `src/core.rs`. -/
def Priority.next : Priority → Priority
  | Priority.Low => Priority.Medium
  | Priority.Medium => Priority.High
  | Priority.High => Priority.Low

/-- `struct Task` from `src/core.rs` (`id: i64`). -/
structure Task where
  id : Int
  description : String
  status : Status
  priority : Priority
deriving DecidableEq, Repr

/-- `sqlx::Error`, modelled as an opaque message. -/
structure SqlxError where
  msg : String
deriving DecidableEq, Repr

/-- `enum ServerError` from `src/core.rs`: its only variant wraps a sqlx
error (`From<SqlxError>` maps `e` to `Database(e)`). -/
inductive ServerError
  | Database (e : SqlxError)
deriving DecidableEq, Repr

/-- The `as i32` cast of `Status` (its `repr(i32)` discriminant). -/
def statusCode : Status → Int
  | Status.ToDo => 0
  | Status.InProgress => 1
  | Status.Done => 2

/-- The `as i32` cast of `Priority` (its `repr(i32)` discriminant). -/
def priorityCode : Priority → Int
  | Priority.Low => 0
  | Priority.Medium => 1
  | Priority.High => 2

end Core

namespace Database

/-- `get_tasks()` from `src/database.rs`: the outcome of the SELECT is an
explicit argument; a sqlx failure converts to `ServerError::Database` via
`?` and `From<SqlxError>`. -/
def get_tasks (query : Except Core.SqlxError (List Core.Task)) :
    Except Core.ServerError (List Core.Task) :=
  match query with
  | Except.ok tasks => Except.ok tasks
  | Except.error e => Except.error (Core.ServerError.Database e)

/-- `get_task(id)` from `src/database.rs`. -/
def get_task (id : Int) (query : Except Core.SqlxError Core.Task) :
    Except Core.ServerError Core.Task :=
  match id, query with
  | _, Except.ok task => Except.ok task
  | _, Except.error e => Except.error (Core.ServerError.Database e)

/-- `create_task(desc)` from `src/database.rs`: INSERT, then `get_task` on
the inserted rowid; a failure of either step propagates. -/
def create_task (desc : String) (insert : Except Core.SqlxError Int)
    (fetch : Int → Except Core.SqlxError Core.Task) : Except Core.ServerError Core.Task :=
  match desc, insert with
  | _, Except.error e => Except.error (Core.ServerError.Database e)
  | _, Except.ok id => get_task id (fetch id)

/-- `update_task(id, desc, status, priority)` from `src/database.rs`: UPDATE,
then `get_task id`; a failure of either step propagates. -/
def update_task (id : Int) (desc : String) (status : Core.Status)
    (priority : Core.Priority) (exec : Except Core.SqlxError Unit)
    (fetch : Except Core.SqlxError Core.Task) : Except Core.ServerError Core.Task :=
  match desc, status, priority, exec with
  | _, _, _, Except.error e => Except.error (Core.ServerError.Database e)
  | _, _, _, Except.ok _ => get_task id fetch

/-- `delete_task(id)` from `src/database.rs`: DELETE, then `Ok(id)`; a
failure propagates. -/
def delete_task (id : Int) (exec : Except Core.SqlxError Unit) :
    Except Core.ServerError Int :=
  match exec with
  | Except.error e => Except.error (Core.ServerError.Database e)
  | Except.ok _ => Except.ok id

end Database

namespace Ui

/-- `uuid::Uuid`, modelled as an opaque token. -/
structure Uuid where
  val : Nat
deriving DecidableEq, Repr

/-- `struct Pending<T>` from `src/ui/pending.rs`: a payload tagged with a
request identifier and an artificial delay (`f32`). -/
structure Pending (T : Type) where
  request_id : Uuid
  data : T
  delay : Float

/-- `Pending::with_delay` from `src/ui/pending.rs`. -/
def Pending.with_delay (p : Pending T) (delay : Float) : Pending T :=
  { p with delay := delay }

/-- `Pending::map` from `src/ui/pending.rs`: apply `f` to the payload and
rebuild the record with the same `request_id` and the same `delay` (the
`thread::sleep` only consumes wall-clock time). -/
def Pending.map (p : Pending T) (f : T → U) : Pending U :=
  { request_id := p.request_id, data := f p.data, delay := p.delay }

/-- `enum TaskFilter` from `src/ui/task_list.rs` (`Active` is the default). -/
inductive TaskFilter
  | All
  | Active
  | Completed
deriving DecidableEq, Repr

/-- `ListFilter::filter` for `TaskFilter` (`src/ui/task_list.rs`): visibility
by status, constant score 0. -/
def TaskFilter.filter (f : TaskFilter) (task : Core.Task) : Bool × Float :=
  let visible :=
    match f with
    | TaskFilter.All => true
    | TaskFilter.Active => !(task.status == Core.Status.Done)
    | TaskFilter.Completed => task.status == Core.Status.Done
  (visible, 0)

/-- `enum TaskSorter` from `src/ui/task_list.rs`. -/
inductive TaskSorter
  | StatusFirst
  | PriorityFirst
deriving DecidableEq, Repr

/-- Rust's `Ord::cmp` on integers (`i64`/`i32`). -/
def cmpInt (a b : Int) : Ordering :=
  if a < b then Ordering.lt else if a = b then Ordering.eq else Ordering.gt

/-- `ListSorter::sort` for `TaskSorter` (`src/ui/task_list.rs` lines
211–220): a lexicographic combination of status, priority (descending) and
id (descending); the filter scores are ignored. -/
def TaskSorter.sort (s : TaskSorter) (a b : Core.Task) (_score_a _score_b : Float) : Ordering :=
  let status_ordering := cmpInt (Core.statusCode a.status) (Core.statusCode b.status)
  let priority_ordering := cmpInt (Core.priorityCode b.priority) (Core.priorityCode a.priority)
  let id_ordering := cmpInt b.id a.id
  (match s with
    | TaskSorter.StatusFirst => status_ordering.then priority_ordering
    | TaskSorter.PriorityFirst => priority_ordering.then status_ordering).then
    id_ordering

/-- `impl Retryable for ServerError` (`src/ui/task_list.rs` lines 228–232):
`should_retry` is constantly `false`. -/
def should_retry : Core.ServerError → Bool :=
  fun _ => false

/-- Modelled from the spec: `PendingItemOperation` is declared in
`src/ui/component/list`, a module not among the provided sources.  Per §4.4
an existing entry's in-flight tag is either absent or one of the two
in-flight mutations (`PendingCreate` entries render through `pending_view`,
not through `ListItem::view`). -/
inductive PendingItemOperation
  | None
  | PendingUpdate
  | PendingDelete
deriving DecidableEq, Repr

/-- Modelled from the spec: `ItemAction` is declared in
`src/ui/component/list`, a module not among the provided sources; its
variants are taken from their uses in `src/ui/task_list.rs` (`None`, `Edit`,
`Update(output)`, `Delete`). -/
inductive ItemAction
  | None
  | Edit
  | Update (output : String × Core.Status × Core.Priority)
  | Delete
deriving DecidableEq, Repr

/-- The action produced by the edit-position control of `ListItem::view` for
`Task` (`src/ui/task_list.rs` lines 290–294): a spinner button yielding
`ItemAction::None` while the entry is `PendingUpdate`, otherwise the "Edit"
button yielding `ItemAction::Edit`. -/
def editButtonAction (op : PendingItemOperation) : ItemAction :=
  match op with
  | PendingItemOperation.PendingUpdate => ItemAction.None
  | _ => ItemAction.Edit

/-- The action produced by the delete-position control of `ListItem::view`
for `Task` (`src/ui/task_list.rs` lines 295–302): a spinner button yielding
`ItemAction::None` while the entry is `PendingDelete`, otherwise the
"Delete" button yielding `ItemAction::Delete`. -/
def deleteButtonAction (op : PendingItemOperation) : ItemAction :=
  match op with
  | PendingItemOperation.PendingDelete => ItemAction.None
  | _ => ItemAction.Delete

/-- The action produced by the status toggle of `ListItem::view` for `Task`
(`src/ui/task_list.rs` lines 281–288), independent of the pending tag. -/
def statusButtonAction (task : Core.Task) : ItemAction :=
  ItemAction.Update (task.description, task.status.next, task.priority)

theorem cmpInt_swap (a b : Int) : cmpInt b a = (cmpInt a b).swap := by
  unfold cmpInt
  rcases lt_trichotomy a b with h | h | h
  · rw [if_neg (by omega), if_neg (by omega), if_pos h]
    rfl
  · subst h
    rw [if_neg (lt_irrefl a), if_pos rfl]
    rfl
  · rw [if_pos h, if_neg (by omega), if_neg (by omega)]
    rfl

theorem cmpInt_eq_eq {a b : Int} : cmpInt a b = Ordering.eq ↔ a = b := by
  unfold cmpInt
  rcases lt_trichotomy a b with h | h | h
  · rw [if_pos h]
    simp only [reduceCtorEq, false_iff]
    omega
  · rw [if_neg (by omega), if_pos h]
    simp [h]
  · rw [if_neg (by omega), if_neg (by omega)]
    simp only [reduceCtorEq, false_iff]
    omega

/-- C4: while an entry is `PendingUpdate` the rendered row's edit control is
the busy spinner whose activation yields `ItemAction::None`, and while it is
`PendingDelete` the delete control likewise yields `ItemAction::None`; in
every other tag those controls yield the ordinary `Edit`/`Delete` intents —
so a second edit (resp. delete) intent cannot be issued for an
already-pending id from those controls. -/
theorem C4_pending_controls_noop :
    editButtonAction PendingItemOperation.PendingUpdate = ItemAction.None ∧
      deleteButtonAction PendingItemOperation.PendingDelete = ItemAction.None ∧
      editButtonAction PendingItemOperation.None = ItemAction.Edit ∧
      editButtonAction PendingItemOperation.PendingDelete = ItemAction.Edit ∧
      deleteButtonAction PendingItemOperation.None = ItemAction.Delete ∧
      deleteButtonAction PendingItemOperation.PendingUpdate = ItemAction.Delete :=
  ⟨rfl, rfl, rfl, rfl, rfl, rfl⟩

/-- C6: for each `TaskSorter` variant the comparison is antisymmetric
(swapping the arguments, scores included, gives the reversed ordering),
returns `Equal` only when the two ids are equal, and on equal status and
equal priority codes orders by descending id. -/
theorem C6_sorter_total_order (s : TaskSorter) (a b : Core.Task) (sa sb : Float) :
    TaskSorter.sort s b a sb sa = (TaskSorter.sort s a b sa sb).swap ∧
      (TaskSorter.sort s a b sa sb = Ordering.eq → a.id = b.id) ∧
      (Core.statusCode a.status = Core.statusCode b.status →
        Core.priorityCode a.priority = Core.priorityCode b.priority →
        TaskSorter.sort s a b sa sb = cmpInt b.id a.id) := by
  refine ⟨?_, ?_, ?_⟩
  · cases s <;> simp only [TaskSorter.sort, Ordering.swap_then, ← cmpInt_swap]
  · intro h
    cases s <;>
      simp only [TaskSorter.sort, Ordering.then_eq_eq] at h <;>
      exact (cmpInt_eq_eq.mp h.2).symm
  · intro hs hp
    have h₁ : cmpInt (Core.statusCode a.status) (Core.statusCode b.status) = Ordering.eq :=
      cmpInt_eq_eq.mpr hs
    have h₂ : cmpInt (Core.priorityCode b.priority) (Core.priorityCode a.priority) =
        Ordering.eq := cmpInt_eq_eq.mpr hp.symm
    cases s <;> simp [TaskSorter.sort, h₁, h₂, Ordering.then]

/-- Witness for C6 at two concrete tasks that tie on status and priority:
the sorter orders them by descending id, swapping the arguments reverses the
result, and a task compared with itself is the only way to get `Equal`. -/
theorem C6_sorter_total_order_witness :
    TaskSorter.sort TaskSorter.StatusFirst
        ⟨2, "b", Core.Status.ToDo, Core.Priority.Low⟩
        ⟨1, "a", Core.Status.ToDo, Core.Priority.Low⟩ 0 0 =
      (TaskSorter.sort TaskSorter.StatusFirst
        ⟨1, "a", Core.Status.ToDo, Core.Priority.Low⟩
        ⟨2, "b", Core.Status.ToDo, Core.Priority.Low⟩ 0 0).swap ∧
    TaskSorter.sort TaskSorter.StatusFirst
        ⟨1, "a", Core.Status.ToDo, Core.Priority.Low⟩
        ⟨2, "b", Core.Status.ToDo, Core.Priority.Low⟩ 0 0 = cmpInt 2 1 := by
  obtain ⟨h₁, _h₂, h₃⟩ := C6_sorter_total_order TaskSorter.StatusFirst
    ⟨1, "a", Core.Status.ToDo, Core.Priority.Low⟩
    ⟨2, "b", Core.Status.ToDo, Core.Priority.Low⟩ 0 0
  exact ⟨h₁, h₃ rfl rfl⟩

/-- C8: `Pending::map` preserves the request identifier and the delay and
changes only the payload (to `f` of the old payload), so the response can be
matched to its originating call whatever the arrival order. -/
theorem C8_pending_map_preserves_correlation {T U : Type}
    (p : Pending T) (f : T → U) :
    (p.map f).request_id = p.request_id ∧ (p.map f).delay = p.delay ∧
      (p.map f).data = f p.data :=
  ⟨rfl, rfl, rfl⟩

/-- C9: every `ServerError` is classified as terminal — `should_retry` is
`false` on the whole type, so the engine never offers a retry. -/
theorem C9_no_retry (e : Core.ServerError) : should_retry e = false :=
  rfl

end Ui

/-- C7 counterexample: the worker loop of `src/main.rs` does not surface a
storage failure to the layer that issued the call — on a failed fetch-all it
prints to stdout and sends no message at all, so at this concrete failing
result the UI receives nothing (and `DbMessage` has no error-carrying
variant). -/
theorem C7_worker_drops_failure_counterexample :
    Main.handleFetchAllResult (Except.error ⟨"connection refused"⟩) = none :=
  rfl

/-- C7 (amended): every failure of the database-layer operations
(`get_tasks`, `get_task`, `create_task` at either step, `update_task` at
either step, `delete_task`) surfaces as a domain `ServerError` to the
caller; the prototype worker loop of `src/main.rs`, however, drops every
storage failure — it logs to stdout and delivers no message to the UI. -/
theorem C7_failure_surfacing_amended :
    (∀ e : Core.SqlxError,
      Database.get_tasks (Except.error e) = Except.error (Core.ServerError.Database e)) ∧
    (∀ (id : Int) (e : Core.SqlxError),
      Database.get_task id (Except.error e) = Except.error (Core.ServerError.Database e)) ∧
    (∀ (desc : String) (e : Core.SqlxError)
        (fetch : Int → Except Core.SqlxError Core.Task),
      Database.create_task desc (Except.error e) fetch =
        Except.error (Core.ServerError.Database e)) ∧
    (∀ (desc : String) (id : Int) (e : Core.SqlxError),
      Database.create_task desc (Except.ok id) (fun _ => Except.error e) =
        Except.error (Core.ServerError.Database e)) ∧
    (∀ (id : Int) (desc : String) (status : Core.Status) (priority : Core.Priority)
        (e : Core.SqlxError) (fetch : Except Core.SqlxError Core.Task),
      Database.update_task id desc status priority (Except.error e) fetch =
        Except.error (Core.ServerError.Database e)) ∧
    (∀ (id : Int) (desc : String) (status : Core.Status) (priority : Core.Priority)
        (e : Core.SqlxError),
      Database.update_task id desc status priority (Except.ok ()) (Except.error e) =
        Except.error (Core.ServerError.Database e)) ∧
    (∀ (id : Int) (e : Core.SqlxError),
      Database.delete_task id (Except.error e) = Except.error (Core.ServerError.Database e)) ∧
    (∀ e : Main.DbError, Main.handleFetchAllResult (Except.error e) = none) ∧
    (∀ e : Main.DbError, Main.handleFetchTodoResult (Except.error e) = none) ∧
    (∀ e : Main.DbError, Main.handleAddTodoResult (Except.error e) = none) :=
  ⟨fun _ => rfl, fun _ _ => rfl, fun _ _ _ => rfl, fun _ _ _ => rfl,
    fun _ _ _ _ _ _ => rfl, fun _ _ _ _ _ => rfl, fun _ _ => rfl,
    fun _ => rfl, fun _ => rfl, fun _ => rfl⟩
